import Mathlib

/-!
Shallow embedding of the cafe-wifi web application (src/main.py) and proofs
about its data model, form handling, authentication and CRUD handlers.
-/

set_option maxHeartbeats 1000000

namespace CafeWifi

/-! ## Decimal values and the coffee-price formatting pipeline

The source stores `coffee_price` as a string produced by formatting the
submitted decimal with a pound sign and exactly two decimal places
(`AddCafeForm.populate_obj`, src/main.py line 111) and parses it back by
stripping every pound sign and re-reading the decimal literal
(`AddCafeForm.prefill_form`, line 123). -/

/-- Decimal number with value `units / 10 ^ scale`, the model of a Python
`decimal.Decimal` as produced by `wtforms.DecimalField` (sign carried by
`units`). -/
structure Dec where
  units : Int
  scale : Nat
deriving DecidableEq, Repr

/-- Character for the decimal digit `n` (`n < 10`). -/
def digitChar (n : Nat) : Char := Char.ofNat (48 + n)

/-- Fuel-indexed rendering of a natural number in base 10, most significant
digit first; called with fuel larger than the number. -/
def natDigitsAux : Nat → Nat → List Char
  | 0, _ => []
  | fuel + 1, n =>
    if n < 10 then [digitChar n]
    else natDigitsAux fuel (n / 10) ++ [digitChar (n % 10)]

/-- Decimal digit string of a natural number, as Python renders the integer
part of a number (no leading zeros, a single `0` for zero). -/
def natDigits (n : Nat) : List Char := natDigitsAux (n + 1) n

/-- Rendering of a pence amount `p` as the fixed-point literal `p / 100`
with exactly two digits after the point, as Python `.2f` formatting does. -/
def formatPence (p : Nat) : List Char :=
  natDigits (p / 100) ++ '.' :: [digitChar (p % 100 / 10), digitChar (p % 100 % 10)]

/-- Magnitude of a decimal `u / 10 ^ scale` rounded to a whole number of
hundredths using round-half-even, the rounding Python `decimal` applies when
formatting with two decimal places. -/
def penceMag (u scale : Nat) : Nat :=
  if scale ≤ 2 then u * 10 ^ (2 - scale)
  else
    let m := 10 ^ (scale - 2)
    let q := u / m
    let r := u % m
    if 2 * r < m then q else if 2 * r > m then q + 1 else q + q % 2

/-- Embedding of the price formatting in `AddCafeForm.populate_obj`
(src/main.py line 111): the submitted decimal rendered with a leading pound
sign and exactly two decimal places. -/
def formatPrice (d : Dec) : String :=
  if d.units < 0 then String.mk ('£' :: '-' :: formatPence (penceMag d.units.natAbs d.scale))
  else String.mk ('£' :: formatPence (penceMag d.units.natAbs d.scale))

/-- Numeric value of a digit string, most significant digit first. -/
def digitsVal (cs : List Char) : Nat :=
  cs.foldl (fun a c => a * 10 + (c.toNat - 48)) 0

/-- Model of `decimal.Decimal` applied to an unsigned fixed-point literal
(the only shape this application ever stores): digits, optionally followed
by a point and further digits.  `none` models the `InvalidOperation` raised
on any other input. -/
def parseDecimal (cs : List Char) : Option Dec :=
  let intPart := cs.takeWhile Char.isDigit
  match cs.dropWhile Char.isDigit with
  | [] => if intPart.isEmpty then none else some ⟨(digitsVal intPart : Int), 0⟩
  | '.' :: frac =>
    if frac.all Char.isDigit && !(intPart.isEmpty && frac.isEmpty) then
      some ⟨(digitsVal intPart * 10 ^ frac.length + digitsVal frac : Int), frac.length⟩
    else none
  | _ => none

/-- Embedding of `str.replace` with the single-character pattern `'£'` and
empty replacement: every pound sign is removed. -/
def stripPound (cs : List Char) : List Char := cs.filter fun c => !(c == '£')

/-- Embedding of the price parsing in `AddCafeForm.prefill_form`
(src/main.py line 123): strip the pound signs and read the decimal back. -/
def parsePrice (s : String) : Option Dec := parseDecimal (stripPound s.data)

/-- Model of Python `str` applied to a nullable text column: the string
itself, or the literal text `None` for an absent value. -/
def pyStr : Option String → String
  | some s => s
  | none => "None"

/-! ## Data model (src/main.py lines 52-70)

The two SQLAlchemy entities, with nullable columns as `Option`. -/

/-- The `Cafe` entity (src/main.py lines 52-63): integer primary key, unique
name, two URL columns, location, four amenity flags and two nullable text
columns for the seats bucket and the pre-formatted coffee price. -/
structure Cafe where
  id : Nat
  name : String
  map_url : String
  img_url : String
  location : String
  has_sockets : Bool
  has_toilet : Bool
  has_wifi : Bool
  can_take_calls : Bool
  seats : Option String
  coffee_price : Option String
deriving DecidableEq, Repr

/-- A freshly constructed `Cafe()` object before `populate_obj` and the
commit-time id assignment. -/
def Cafe.blank : Cafe := ⟨0, "", "", "", "", false, false, false, false, none, none⟩

/-- The `User` entity (src/main.py lines 66-70): integer primary key, unique
email, password hash and display name. -/
structure User where
  id : Nat
  email : String
  password_hash : String
  name : String
deriving DecidableEq, Repr

/-- Persistent store state: the two tables plus the next primary key each
table will assign at insert, modelling the integer-primary-key assignment
of the embedded database. -/
structure DB where
  cafes : List Cafe
  users : List User
  nextCafeId : Nat
  nextUserId : Nat
deriving DecidableEq, Repr

/-- Row lookup by primary key, the query behind `db.get_or_404(Cafe, id)`. -/
def db_get (db : DB) (cafe_id : Nat) : Option Cafe :=
  db.cafes.find? fun c => c.id == cafe_id

/-- Rows rendered by the `index` route (src/main.py lines 136-139): all
cafes in insertion order. -/
def index_cafes (db : DB) : List Cafe := db.cafes

/-! ## Password hashing (external collaborator)

Deterministic injective model of the one-way hasher used through
`werkzeug.security`: hashing tags the password, verification succeeds
exactly when the stored hash is the hash of the offered password. -/

/-- Model of `werkzeug.security.generate_password_hash`. -/
def generate_password_hash (p : String) : String :=
  String.mk ('p' :: 'b' :: 'k' :: 'd' :: 'f' :: '2' :: ':' :: p.data)

/-- Model of `werkzeug.security.check_password_hash`. -/
def check_password_hash (stored offered : String) : Bool :=
  stored == generate_password_hash offered

/-! ## Forms and server-side validation (src/main.py lines 73-133)

Each form is modelled by the data its fields hold after processing a
submission; a validator is the conjunction of the field validators declared
in the source.  Submissions are `Option form` — `none` is a plain GET with
no (valid CSRF) submission, so `validate_on_submit` is false. -/

/-- Embedding of `wtforms.validators.DataRequired` on a string field: the
value must not be empty nor consist solely of whitespace. -/
def dataRequiredStr (s : String) : Bool :=
  !(s.data.all fun c => c.isWhitespace)

/-- The `SignupForm` field data (src/main.py lines 73-77). -/
structure SignupForm where
  email : String
  name : String
  password : String
deriving DecidableEq, Repr

/-- Server-side validation of `SignupForm`: `DataRequired` on email, name
and password, plus `Length(min=8)` on the password. -/
def signupValidate (f : SignupForm) : Bool :=
  dataRequiredStr f.email && dataRequiredStr f.name &&
    dataRequiredStr f.password && decide (8 ≤ f.password.length)

/-- The `LoginForm` field data (src/main.py lines 80-83). -/
structure LoginForm where
  email : String
  password : String
deriving DecidableEq, Repr

/-- Server-side validation of `LoginForm`: `DataRequired` on both fields
plus `Length(min=8)` on the password. -/
def loginValidate (f : LoginForm) : Bool :=
  dataRequiredStr f.email && dataRequiredStr f.password &&
    decide (8 ≤ f.password.length)

/-- The seats bucket values of `AddCafeForm.seat_choices` (src/main.py
lines 87-88); in the source each choice is a pair of identical value and
label strings, modelled here by the value. -/
def seat_choices : List String :=
  ["0-10", "10-20", "20-30", "30-40", "40-50", "50+"]

/-- The `AddCafeForm` field data (src/main.py lines 86-99).  `seats` is the
`SelectField` data (absent on an empty submission) and `coffee_price` the
`DecimalField` data (`none` when the raw input did not parse). -/
structure AddCafeForm where
  name : String
  map_url : String
  img_url : String
  location : String
  has_sockets : Bool
  has_wifi : Bool
  can_take_calls : Bool
  has_toilet : Bool
  seats : Option String
  coffee_price : Option Dec
deriving DecidableEq, Repr

/-- Server-side validation of `AddCafeForm`: `DataRequired` on the four
text fields, the `SelectField` choice check on `seats`, and
`DataRequired` plus `NumberRange(min=0)` on `coffee_price`.  `DataRequired`
on a decimal field fails when the data is absent or numerically zero (a
zero `Decimal` is falsy in Python).  The two `URLField`s carry no
server-side URL validator in the source, so no shape check appears here. -/
def addCafeValidate (f : AddCafeForm) : Bool :=
  dataRequiredStr f.name && dataRequiredStr f.map_url &&
    dataRequiredStr f.img_url && dataRequiredStr f.location &&
    (match f.seats with
     | some s => seat_choices.contains s
     | none => false) &&
    (match f.coffee_price with
     | some d => d.units != 0 && decide (0 ≤ d.units)
     | none => false)

/-- Per-field validation errors of `AddCafeForm`, naming each field whose
validator chain fails. -/
def addCafeFieldErrors (f : AddCafeForm) : List String :=
  (if dataRequiredStr f.name then [] else ["name"]) ++
  (if dataRequiredStr f.map_url then [] else ["map_url"]) ++
  (if dataRequiredStr f.img_url then [] else ["img_url"]) ++
  (if dataRequiredStr f.location then [] else ["location"]) ++
  (match f.seats with
   | some s => if seat_choices.contains s then [] else ["seats"]
   | none => ["seats"]) ++
  (match f.coffee_price with
   | some d => if d.units != 0 && decide (0 ≤ d.units) then [] else ["coffee_price"]
   | none => ["coffee_price"])

/-- Embedding of `AddCafeForm.populate_obj` (src/main.py lines 101-111):
copy every field onto the entity and store the price as the formatted
string.  `none` models the `TypeError` the format call would raise without
price data (unreachable after validation). -/
def populate_obj (self : AddCafeForm) (obj : Cafe) : Option Cafe :=
  self.coffee_price.map fun d =>
    { obj with
      name := self.name
      map_url := self.map_url
      img_url := self.img_url
      location := self.location
      has_sockets := self.has_sockets
      has_toilet := self.has_toilet
      has_wifi := self.has_wifi
      can_take_calls := self.can_take_calls
      seats := self.seats
      coffee_price := some (formatPrice d) }

/-- Embedding of `AddCafeForm.prefill_form` (src/main.py lines 113-123):
load every entity attribute into the form, parsing the stored price string
back to a decimal.  `none` models the `InvalidOperation` raised when the
stored string (or the text `None`) is not a decimal literal. -/
def prefill_form (self : AddCafeForm) (cafe : Cafe) : Option AddCafeForm :=
  (parsePrice (pyStr cafe.coffee_price)).map fun d =>
    { self with
      name := cafe.name
      map_url := cafe.map_url
      img_url := cafe.img_url
      location := cafe.location
      has_sockets := cafe.has_sockets
      has_toilet := cafe.has_toilet
      has_wifi := cafe.has_wifi
      can_take_calls := cafe.can_take_calls
      seats := cafe.seats
      coffee_price := some d }

/-- The `DeleteCafeForm` field data (src/main.py lines 126-128): which of
the two submit buttons carried the submission. -/
structure DeleteCafeForm where
  submit_delete : Bool
  submit_cancel : Bool
deriving DecidableEq, Repr

/-! ## Responses and route handlers (src/main.py lines 136-262)

Redirect targets are the routes `url_for` can build in this application,
plus `raw` for a caller-supplied destination (the `next` query argument and
`request.referrer`).  A response carries the flash messages emitted while
producing it.  `errorPage` models an exception escaping the handler: the
framework converts it to a generic error page, so the process survives but
no flash-style page is shown. -/

/-- Redirect target. -/
inductive Url where
  | root
  | login (next : Option String)
  | signup
  | cafeDetail (id : Nat)
  | raw (s : String)
deriving DecidableEq, Repr

/-- The `next` query argument carried by a target, as
`request.args.get` reads it on the subsequent request (src/main.py
line 239). -/
def Url.nextArg : Url → Option String
  | .login n => n
  | _ => none

/-- Outcome of one request. -/
inductive Response where
  | redirect (url : Url) (flashes : List String)
  | render (flashes : List String)
  | notFound
  | errorPage (msg : String)
deriving DecidableEq, Repr

/-- A response is a flash-style page when it reaches the user with at least
one flash message attached (a warning render or a redirect that flashed). -/
def isFlashWarning : Response → Bool
  | .redirect _ flashes => !flashes.isEmpty
  | .render flashes => !flashes.isEmpty
  | _ => false

/-- Embedding of `load_user` (src/main.py lines 47-49): a `scalar_one`
lookup of the user by primary key, which raises `NoResultFound` when no row
matches (and `MultipleResultsFound` on a duplicate key, impossible for a
primary key). -/
def load_user (users : List User) (user_id : Nat) : Except String User :=
  match users.filter (fun u => u.id == user_id) with
  | [] => .error "NoResultFound"
  | [u] => .ok u
  | _ => .error "MultipleResultsFound"

/-- Current-user marker. -/
inductive CurrentUser where
  | anonymous
  | user (u : User)
deriving DecidableEq, Repr

/-- Session-to-actor resolution as flask_login performs it: with no session
the anonymous marker, otherwise whatever `load_user` produces for the
session-stored id (an exception propagates). -/
def resolve_current_user (users : List User) (session : Option Nat) :
    Except String CurrentUser :=
  match session with
  | none => .ok .anonymous
  | some uid => (load_user users uid).map .user

/-- Embedding of the `show_cafe` route (src/main.py lines 142-147):
`get_or_404` then render the detail view. -/
def show_cafe (db : DB) (cafe_id : Nat) : Response :=
  match db_get db cafe_id with
  | none => .notFound
  | some _ => .render []

/-- Embedding of the `add_cafe` handler body (src/main.py lines 150-162).
On a valid submission a fresh entity is populated and committed; the
commit enforces the unique constraint on `Cafe.name`, and the handler has
no exception handling, so a collision escapes as an `IntegrityError`
(a generic error page).  Otherwise the form is (re-)rendered. -/
def add_cafe (db : DB) (sub : Option AddCafeForm) : DB × Response :=
  match sub with
  | some f =>
    if addCafeValidate f then
      match populate_obj f Cafe.blank with
      | some cafe =>
        if db.cafes.any (fun c => c.name == cafe.name) then
          (db, .errorPage "UNIQUE constraint failed: cafe.name")
        else
          let committed := { cafe with id := db.nextCafeId }
          ({ db with
              cafes := db.cafes ++ [committed]
              nextCafeId := db.nextCafeId + 1 },
           .redirect (.cafeDetail committed.id) [])
      | none => (db, .errorPage "TypeError")
    else (db, .render (addCafeFieldErrors f))
  | none => (db, .render [])

/-- Models flask_login `login_required` as configured in the source
(src/main.py lines 27-28 and the decorator at line 151): without a session
the request short-circuits into a redirect to the `login` view carrying the
originally requested path as the `next` argument; with a session the
handler result stands. -/
def login_required (session : Option Nat) (path : String) (db : DB)
    (result : DB × Response) : DB × Response :=
  match session with
  | none => (db, .redirect (.login (some path)) [])
  | some _ => result

/-- The `/cafe/add` route as routed: the `login_required` guard wrapped
around the `add_cafe` handler body. -/
def add_cafe_route (db : DB) (session : Option Nat)
    (sub : Option AddCafeForm) : DB × Response :=
  login_required session "/cafe/add" db (add_cafe db sub)

/-- Embedding of the `delete_cafe` handler (src/main.py lines 184-198):
`get_or_404`, then on a submission either delete-and-commit with a redirect
to the list, or a plain redirect to the detail view, else render the
confirmation form. -/
def delete_cafe (db : DB) (cafe_id : Nat) (sub : Option DeleteCafeForm) :
    DB × Response :=
  match db_get db cafe_id with
  | none => (db, .notFound)
  | some _ =>
    match sub with
    | some f =>
      if f.submit_delete then
        ({ db with cafes := db.cafes.filter fun c => !(c.id == cafe_id) },
         .redirect .root [])
      else if f.submit_cancel then
        (db, .redirect (.cafeDetail cafe_id) [])
      else (db, .render [])
    | none => (db, .render [])

/-- Embedding of the `signup` handler (src/main.py lines 215-234): on a
valid submission, look the email up first; on a hit flash a warning and
redirect back to signup with no store change, otherwise insert the new user
with the hashed password and redirect to login. -/
def signup (db : DB) (sub : Option SignupForm) : DB × Response :=
  match sub with
  | some f =>
    if signupValidate f then
      match db.users.find? (fun u => u.email == f.email) with
      | some _ =>
        (db, .redirect .signup ["User with this email already exists"])
      | none =>
        let user : User :=
          ⟨db.nextUserId, f.email, generate_password_hash f.password, f.name⟩
        ({ db with
            users := db.users ++ [user]
            nextUserId := db.nextUserId + 1 },
         .redirect (.login none) [])
    else (db, .render [])
  | none => (db, .render [])

/-- Embedding of the `login` handler (src/main.py lines 237-255).  The
translation keeps the source control flow exactly: when the email lookup
misses, the email flash fires AND the `else` of the combined
`user and check_password_hash` test fires the password flash as well; a
successful check stores the user id in the session and redirects to the
requested `next` destination or the listing.  The first component of the
result is the session after the request. -/
def login (users : List User) (session : Option Nat)
    (next_page : Option String) (sub : Option LoginForm) :
    Option Nat × Response :=
  match sub with
  | some f =>
    if loginValidate f then
      let user := users.find? fun u => u.email == f.email
      let emailFlash :=
        match user with
        | none => ["User with this email does not exist"]
        | some _ => []
      match user with
      | some u =>
        if check_password_hash u.password_hash f.password then
          (some u.id,
           .redirect (match next_page with | some p => .raw p | none => .root)
             emailFlash)
        else
          (session, .render (emailFlash ++ ["Password is incorrect"]))
      | none =>
        (session, .render (emailFlash ++ ["Password is incorrect"]))
    else (session, .render [])
  | none => (session, .render [])

/-- Modelled from the spec: syntactic URL well-formedness ("URL-shape
(map_url, img_url — syntactic well-formedness only, not reachability)").
The source carries no server-side URL validator, so this predicate follows
the spec words: an alphabetic scheme, the separator `://`, a nonempty
remainder, and no space anywhere. -/
def schemeSplit : List Char → Option (List Char × List Char)
  | [] => none
  | ':' :: '/' :: '/' :: rest => some ([], rest)
  | c :: rest => (schemeSplit rest).map fun p => (c :: p.1, p.2)

/-- Modelled from the spec: decision procedure for the URL-shape rule the
spec attributes to `map_url` and `img_url`. -/
def urlWellFormed (s : String) : Bool :=
  match schemeSplit s.data with
  | some (scheme, rest) =>
    !scheme.isEmpty && scheme.all Char.isAlpha && !rest.isEmpty &&
      !(s.data.any fun c => c == ' ')
  | none => false

/-! ## Concrete sample data used by witnesses and counterexamples -/

/-- A well-formed AddCafe submission. -/
def sampleForm : AddCafeForm :=
  ⟨"Blue Bottle", "https://maps.example.com/a", "https://img.example.com/a.png",
   "SF", true, true, false, true, some "10-20", some ⟨350, 2⟩⟩

/-- An AddCafe submission whose URL fields are not syntactically well-formed
URLs but which passes server-side validation. -/
def badUrlForm : AddCafeForm :=
  ⟨"Corner Cafe", "not a url", "also not a url", "London",
   false, true, true, false, some "0-10", some ⟨250, 2⟩⟩

/-- The store right after schema creation: both tables empty, primary keys
starting at 1. -/
def emptyDB : DB := ⟨[], [], 1, 1⟩

/-- A stored account. -/
def sampleUser : User := ⟨1, "ann@example.com", generate_password_hash "hunter2magic", "Ann"⟩

/-! ## Supporting lemmas on the digit and price functions -/

lemma digitChar_toNat {m : Nat} (h : m < 10) : (digitChar m).toNat = 48 + m := by
  interval_cases m <;> decide

lemma digitChar_isDigit {m : Nat} (h : m < 10) : (digitChar m).isDigit = true := by
  interval_cases m <;> decide

lemma foldl_digits_acc (cs : List Char) : ∀ a : Nat,
    cs.foldl (fun x c => x * 10 + (c.toNat - 48)) a
      = a * 10 ^ cs.length + digitsVal cs := by
  induction cs with
  | nil => intro a; simp [digitsVal]
  | cons c cs ih =>
    intro a
    have h1 := ih (a * 10 + (c.toNat - 48))
    have h2 := ih (0 * 10 + (c.toNat - 48))
    simp only [digitsVal, List.foldl_cons, List.length_cons] at *
    rw [h1, h2]
    ring

lemma digitsVal_append (xs ys : List Char) :
    digitsVal (xs ++ ys) = digitsVal xs * 10 ^ ys.length + digitsVal ys := by
  simp only [digitsVal, List.foldl_append]
  rw [foldl_digits_acc]
  rfl

lemma natDigitsAux_spec : ∀ fuel n : Nat, n < fuel →
    digitsVal (natDigitsAux fuel n) = n ∧
    (∀ c ∈ natDigitsAux fuel n, c.isDigit = true) ∧
    natDigitsAux fuel n ≠ [] := by
  intro fuel
  induction fuel with
  | zero => intro n h; omega
  | succ fuel ih =>
    intro n h
    by_cases h10 : n < 10
    · simp only [natDigitsAux, if_pos h10]
      refine ⟨?_, ?_, by simp⟩
      · simp [digitsVal, digitChar_toNat h10]
      · intro c hc
        simp only [List.mem_singleton] at hc
        subst hc
        exact digitChar_isDigit h10
    · have hdiv : n / 10 < fuel := by
        have := Nat.div_lt_self (show 0 < n by omega) (show 1 < 10 by omega)
        omega
      obtain ⟨ihv, ihd, _⟩ := ih (n / 10) hdiv
      simp only [natDigitsAux, if_neg h10]
      refine ⟨?_, ?_, by simp⟩
      · rw [digitsVal_append, ihv]
        have := digitChar_toNat (show n % 10 < 10 by omega)
        simp [digitsVal, this]
        omega
      · intro c hc
        rcases List.mem_append.1 hc with h1 | h1
        · exact ihd c h1
        · simp only [List.mem_singleton] at h1
          subst h1
          exact digitChar_isDigit (show n % 10 < 10 by omega)

lemma digitsVal_natDigits (n : Nat) : digitsVal (natDigits n) = n :=
  (natDigitsAux_spec (n + 1) n (Nat.lt_succ_self n)).1

lemma natDigits_digits (n : Nat) : ∀ c ∈ natDigits n, c.isDigit = true :=
  (natDigitsAux_spec (n + 1) n (Nat.lt_succ_self n)).2.1

lemma natDigits_ne_nil (n : Nat) : natDigits n ≠ [] :=
  (natDigitsAux_spec (n + 1) n (Nat.lt_succ_self n)).2.2

lemma digit_beq_pound {c : Char} (h : c.isDigit = true) : (c == '£') = false := by
  cases hb : c == '£' with
  | false => rfl
  | true =>
    have : c = '£' := eq_of_beq hb
    subst this
    exact absurd h (by decide)

lemma filter_eq_self_of_all {p : Char → Bool} :
    ∀ xs : List Char, (∀ c ∈ xs, p c = true) → xs.filter p = xs := by
  intro xs
  induction xs with
  | nil => intro _; rfl
  | cons x xs ih =>
    intro hall
    have hx := hall x (by simp)
    simp [List.filter_cons, hx, ih fun c hc => hall c (by simp [hc])]

lemma takeWhile_dropWhile_append {p : Char → Bool} :
    ∀ xs : List Char, (∀ c ∈ xs, p c = true) → ∀ (y : Char) (ys : List Char), p y = false →
      (xs ++ y :: ys).takeWhile p = xs ∧ (xs ++ y :: ys).dropWhile p = y :: ys := by
  intro xs
  induction xs with
  | nil =>
    intro _ y ys hy
    simp [List.takeWhile_cons, List.dropWhile_cons, hy]
  | cons x xs ih =>
    intro hall y ys hy
    have hx : p x = true := hall x (by simp)
    have hrest := ih (fun c hc => hall c (by simp [hc])) y ys hy
    simp [List.takeWhile_cons, List.dropWhile_cons, hx, hrest.1, hrest.2]

lemma parsePrice_format (p : Nat) :
    parsePrice (String.mk ('£' :: formatPence p)) = some ⟨(p : Int), 2⟩ := by
  have hdig := natDigits_digits (p / 100)
  have h1 : p % 100 / 10 < 10 := by omega
  have h2 : p % 100 % 10 < 10 := by omega
  have hd1 := digitChar_isDigit h1
  have hd2 := digitChar_isDigit h2
  have hne := natDigits_ne_nil (p / 100)
  have hpred : ∀ c ∈ formatPence p, (!(c == '£')) = true := by
    intro c hc
    unfold formatPence at hc
    rcases List.mem_append.1 hc with h | h
    · rw [digit_beq_pound (hdig c h)]; rfl
    · simp only [List.mem_cons, List.not_mem_nil, or_false] at h
      rcases h with h | h | h
      · subst h; decide
      · subst h; rw [digit_beq_pound hd1]; rfl
      · subst h; rw [digit_beq_pound hd2]; rfl
  have hstrip : stripPound ('£' :: formatPence p) = formatPence p := by
    unfold stripPound
    rw [List.filter_cons]
    simp only [show (!(('£' : Char) == '£')) = false from rfl, if_false]
    exact filter_eq_self_of_all _ hpred
  obtain ⟨htake, hdrop⟩ :=
    takeWhile_dropWhile_append (natDigits (p / 100)) hdig '.'
      [digitChar (p % 100 / 10), digitChar (p % 100 % 10)] (by decide)
  have hval2 :
      digitsVal [digitChar (p % 100 / 10), digitChar (p % 100 % 10)] = p % 100 := by
    simp [digitsVal, digitChar_toNat h1, digitChar_toNat h2]
    omega
  have hdata : (String.mk ('£' :: formatPence p)).data = '£' :: formatPence p := rfl
  unfold parsePrice
  rw [hdata, hstrip]
  unfold parseDecimal
  rw [show formatPence p
      = natDigits (p / 100) ++ '.' :: [digitChar (p % 100 / 10), digitChar (p % 100 % 10)]
      from rfl, htake, hdrop]
  simp only [List.all_cons, List.all_nil, hd1, hd2, Bool.and_true, Bool.true_and,
    List.isEmpty_nil]
  rw [show (natDigits (p / 100)).isEmpty = false by
    cases hcase : natDigits (p / 100) with
    | nil => exact absurd hcase hne
    | cons a l => rfl]
  simp only [Bool.false_and, Bool.not_false, Bool.and_true, if_true]
  rw [digitsVal_natDigits, hval2]
  congr 1
  simp only [List.length_cons, List.length_nil]
  congr 1
  omega

lemma penceMag_two (p : Nat) : penceMag p 2 = p := by
  unfold penceMag
  simp

lemma formatPrice_nonneg (d : Dec) (h : 0 ≤ d.units) :
    formatPrice d = String.mk ('£' :: formatPence (penceMag d.units.natAbs d.scale)) := by
  unfold formatPrice
  rw [if_neg (by omega)]

lemma formatPrice_pence (p : Nat) :
    formatPrice ⟨(p : Int), 2⟩ = String.mk ('£' :: formatPence p) := by
  have hp : (0 : Int) ≤ (p : Int) := by exact_mod_cast Nat.zero_le p
  rw [formatPrice_nonneg ⟨(p : Int), 2⟩ hp]
  simp [penceMag_two]

lemma parsePrice_formatPrice (d : Dec) (h : 0 ≤ d.units) :
    parsePrice (formatPrice d) = some ⟨(penceMag d.units.natAbs d.scale : Int), 2⟩ := by
  rw [formatPrice_nonneg d h]
  exact parsePrice_format _

lemma price_roundtrip_two_decimals (n : Nat) :
    parsePrice (formatPrice ⟨(n : Int), 2⟩) = some ⟨(n : Int), 2⟩ := by
  rw [formatPrice_pence, parsePrice_format]

lemma addCafeValidate_spec {f : AddCafeForm} (h : addCafeValidate f = true) :
    dataRequiredStr f.name = true ∧ dataRequiredStr f.map_url = true ∧
    dataRequiredStr f.img_url = true ∧ dataRequiredStr f.location = true ∧
    (∃ s, f.seats = some s ∧ seat_choices.contains s = true) ∧
    ∃ d, f.coffee_price = some d ∧ d.units ≠ 0 ∧ 0 ≤ d.units := by
  unfold addCafeValidate at h
  simp only [Bool.and_eq_true] at h
  obtain ⟨⟨⟨⟨⟨h1, h2⟩, h3⟩, h4⟩, h5⟩, h6⟩ := h
  refine ⟨h1, h2, h3, h4, ?_, ?_⟩
  · cases hs : f.seats with
    | none => rw [hs] at h5; cases h5
    | some s =>
      rw [hs] at h5
      exact ⟨s, rfl, h5⟩
  · cases hc : f.coffee_price with
    | none => rw [hc] at h6; cases h6
    | some d =>
      rw [hc] at h6
      simp only [Bool.and_eq_true, bne_iff_ne, ne_eq, decide_eq_true_eq] at h6
      exact ⟨d, rfl, h6.1, h6.2⟩

lemma find?_append_right {α : Type} (p : α → Bool) :
    ∀ l₁ l₂ : List α, (∀ x ∈ l₁, p x = false) → (l₁ ++ l₂).find? p = l₂.find? p := by
  intro l₁
  induction l₁ with
  | nil => intro l₂ _; rfl
  | cons x xs ih =>
    intro l₂ hall
    have hx := hall x (by simp)
    rw [List.cons_append, List.find?_cons, hx]
    exact ih l₂ fun y hy => hall y (by simp [hy])

lemma isEmpty_append' (xs ys : List String) :
    (xs ++ ys).isEmpty = (xs.isEmpty && ys.isEmpty) := by
  cases xs with
  | nil => simp
  | cons x xs => rfl

lemma isEmpty_errItem (c : Bool) (msg : String) :
    (if c then ([] : List String) else [msg]).isEmpty = c := by
  cases c <;> rfl

lemma addCafeValidate_eq_noErrors (f : AddCafeForm) :
    addCafeValidate f = (addCafeFieldErrors f).isEmpty := by
  unfold addCafeValidate addCafeFieldErrors
  rw [isEmpty_append', isEmpty_append', isEmpty_append', isEmpty_append',
    isEmpty_append', isEmpty_errItem, isEmpty_errItem, isEmpty_errItem,
    isEmpty_errItem]
  congr 1
  congr 1
  · cases f.seats with
    | none => rfl
    | some s => rw [isEmpty_errItem]
  · cases f.coffee_price with
    | none => rfl
    | some d => rw [isEmpty_errItem]

lemma generate_password_hash_inj {p q : String}
    (h : generate_password_hash p = generate_password_hash q) : p = q := by
  have hd : 'p' :: 'b' :: 'k' :: 'd' :: 'f' :: '2' :: ':' :: p.data
      = 'p' :: 'b' :: 'k' :: 'd' :: 'f' :: '2' :: ':' :: q.data :=
    congrArg String.data h
  simp only [List.cons.injEq, true_and] at hd
  exact String.ext hd

lemma check_gen_self (p : String) :
    check_password_hash (generate_password_hash p) p = true := by
  simp [check_password_hash]

lemma check_gen_false {p q : String} (h : q ≠ p) :
    check_password_hash (generate_password_hash p) q = false := by
  unfold check_password_hash
  rw [beq_eq_false_iff_ne]
  intro heq
  exact h (generate_password_hash_inj heq).symm

lemma add_cafe_success {db : DB} {f : AddCafeForm} {d : Dec}
    (hv : addCafeValidate f = true) (hd : f.coffee_price = some d)
    (hfresh : (db.cafes.any fun c => c.name == f.name) = false) :
    add_cafe db (some f)
      = ({ db with
            cafes := db.cafes ++
              [⟨db.nextCafeId, f.name, f.map_url, f.img_url, f.location,
                f.has_sockets, f.has_toilet, f.has_wifi, f.can_take_calls,
                f.seats, some (formatPrice d)⟩],
            nextCafeId := db.nextCafeId + 1 },
         .redirect (.cafeDetail db.nextCafeId) []) := by
  simp only [add_cafe, hv, if_true, populate_obj, hd, Option.map_some']
  simp only [hfresh]
  rfl

/-! ## Claim theorems -/

/-- C2: a login submission whose email matches no stored user does NOT
produce only the email-not-found message — the handler control flow (the
`else` of `if user and check_password_hash` at src/main.py lines 245-251)
also fires the password-mismatch flash, so both user-visible messages are
emitted on the unknown-email path. -/
theorem login_unknown_email_flashes_both :
    login [sampleUser] none none (some ⟨"ghost@example.com", "password123"⟩)
      = (none, .render ["User with this email does not exist", "Password is incorrect"]) := by
  decide

/-- C5: current-user resolution is not total.  With no session it yields
the anonymous marker, but a session carrying an id that matches no stored
User row makes `load_user` raise `NoResultFound` (`scalar_one` at
src/main.py line 49) instead of resolving to an anonymous marker. -/
theorem load_user_raises_on_missing_id :
    resolve_current_user [sampleUser] none = .ok .anonymous ∧
    resolve_current_user [sampleUser] (some 2) = .error "NoResultFound" ∧
    resolve_current_user [] (some 1) = .error "NoResultFound" :=
  ⟨by rfl, by rfl, by rfl⟩

/-- C3 counterexample: submitting the same cafe twice makes the second
attempt surface as a generic error page (the uncaught `IntegrityError` of
the commit at src/main.py line 158), NOT as a flash-style warning page. -/
theorem duplicate_cafe_errorPage_not_flash :
    (add_cafe (add_cafe emptyDB (some sampleForm)).1 (some sampleForm)).2
      = .errorPage "UNIQUE constraint failed: cafe.name" ∧
    isFlashWarning
      (add_cafe (add_cafe emptyDB (some sampleForm)).1 (some sampleForm)).2 = false := by
  refine ⟨by decide, by decide⟩

/-- C3 (amended): a second add_cafe submission with an already-stored cafe
name fails on the unique-name constraint with no state change, the store
keeps exactly one cafe with that name, and the failure surfaces as a
generic error page rather than a flash-style warning. -/
theorem duplicate_cafe_uniqueness (db : DB) (f : AddCafeForm)
    (hv : addCafeValidate f = true)
    (hdup : (db.cafes.filter fun c => c.name == f.name).length = 1) :
    (add_cafe db (some f)).1 = db ∧
    (add_cafe db (some f)).2 = .errorPage "UNIQUE constraint failed: cafe.name" ∧
    ((add_cafe db (some f)).1.cafes.filter fun c => c.name == f.name).length = 1 := by
  obtain ⟨-, -, -, -, -, d, hd, -, -⟩ := addCafeValidate_spec hv
  have hany : (db.cafes.any fun c => c.name == f.name) = true := by
    rw [List.any_eq_true]
    obtain ⟨x, hx⟩ := List.length_eq_one.1 hdup
    have hmem : x ∈ db.cafes.filter fun c => c.name == f.name := by
      rw [hx]; simp
    obtain ⟨hmem', hpred⟩ := List.mem_filter.1 hmem
    exact ⟨x, hmem', hpred⟩
  simp only [add_cafe, hv, if_true, populate_obj, hd, Option.map_some']
  simp only [hany, if_true]
  exact ⟨trivial, trivial, hdup⟩

/-- C3 witness: the amended theorem applied to the store produced by a
first successful add of the sample cafe. -/
theorem duplicate_cafe_uniqueness_witness :
    addCafeValidate sampleForm = true ∧
    ((add_cafe emptyDB (some sampleForm)).1.cafes.filter
        fun c => c.name == sampleForm.name).length = 1 ∧
    ((add_cafe (add_cafe emptyDB (some sampleForm)).1 (some sampleForm)).1
        = (add_cafe emptyDB (some sampleForm)).1 ∧
      (add_cafe (add_cafe emptyDB (some sampleForm)).1 (some sampleForm)).2
        = .errorPage "UNIQUE constraint failed: cafe.name" ∧
      ((add_cafe (add_cafe emptyDB (some sampleForm)).1 (some sampleForm)).1.cafes.filter
          fun c => c.name == sampleForm.name).length = 1) :=
  ⟨by decide, by decide,
    duplicate_cafe_uniqueness (add_cafe emptyDB (some sampleForm)).1 sampleForm
      (by decide) (by decide)⟩

/-- C4 counterexample: a submission whose `map_url` and `img_url` are not
syntactically well-formed URLs is nonetheless accepted by server-side
validation, because the source attaches no URL validator to the two
`URLField`s (src/main.py lines 90-91). -/
theorem validation_accepts_ill_formed_url :
    addCafeValidate badUrlForm = true ∧
    urlWellFormed badUrlForm.map_url = false ∧
    urlWellFormed badUrlForm.img_url = false := by
  refine ⟨by decide, by decide, by decide⟩

/-- C4 (amended): server-side validation accepts a submission only if the
required fields are present (non-whitespace), the signup and login
passwords have at least 8 characters, the coffee price is present, nonzero
and nonnegative, and seats is one of the fixed bucket choices; `map_url`
and `img_url` are checked for presence only, and acceptance coincides with
the absence of per-field errors. -/
theorem validation_rules_sans_urlshape (f : AddCafeForm) (g : SignupForm)
    (l : LoginForm) (hf : addCafeValidate f = true)
    (hg : signupValidate g = true) (hl : loginValidate l = true) :
    dataRequiredStr f.name = true ∧ dataRequiredStr f.map_url = true ∧
    dataRequiredStr f.img_url = true ∧ dataRequiredStr f.location = true ∧
    (∃ s, f.seats = some s ∧ seat_choices.contains s = true) ∧
    (∃ d, f.coffee_price = some d ∧ d.units ≠ 0 ∧ 0 ≤ d.units) ∧
    dataRequiredStr g.email = true ∧ dataRequiredStr g.name = true ∧
    8 ≤ g.password.length ∧ 8 ≤ l.password.length ∧
    addCafeValidate f = (addCafeFieldErrors f).isEmpty := by
  obtain ⟨h1, h2, h3, h4, h5, h6⟩ := addCafeValidate_spec hf
  unfold signupValidate at hg
  unfold loginValidate at hl
  simp only [Bool.and_eq_true, decide_eq_true_eq] at hg hl
  exact ⟨h1, h2, h3, h4, h5, h6, hg.1.1.1, hg.1.1.2, hg.2, hl.2,
    addCafeValidate_eq_noErrors f⟩

/-- C4 witness: the amended validation theorem applied to concrete valid
submissions for all three forms. -/
theorem validation_rules_sans_urlshape_witness :
    addCafeValidate sampleForm = true ∧
    signupValidate ⟨"bob@example.com", "Bob", "longenough"⟩ = true ∧
    loginValidate ⟨"bob@example.com", "longenough"⟩ = true ∧
    (dataRequiredStr sampleForm.name = true ∧
      dataRequiredStr sampleForm.map_url = true ∧
      dataRequiredStr sampleForm.img_url = true ∧
      dataRequiredStr sampleForm.location = true ∧
      (∃ s, sampleForm.seats = some s ∧ seat_choices.contains s = true) ∧
      (∃ d, sampleForm.coffee_price = some d ∧ d.units ≠ 0 ∧ 0 ≤ d.units) ∧
      dataRequiredStr (SignupForm.mk "bob@example.com" "Bob" "longenough").email = true ∧
      dataRequiredStr (SignupForm.mk "bob@example.com" "Bob" "longenough").name = true ∧
      8 ≤ (SignupForm.mk "bob@example.com" "Bob" "longenough").password.length ∧
      8 ≤ (LoginForm.mk "bob@example.com" "longenough").password.length ∧
      addCafeValidate sampleForm = (addCafeFieldErrors sampleForm).isEmpty) :=
  ⟨by decide, by decide, by decide,
    validation_rules_sans_urlshape sampleForm
      ⟨"bob@example.com", "Bob", "longenough"⟩
      ⟨"bob@example.com", "longenough"⟩ (by decide) (by decide) (by decide)⟩

/-- C7: a valid signup submission whose email is already stored fails with
the duplicate-email flash warning and a redirect back to signup, leaving
the store — every user row and in particular the original password hash —
exactly as it was, with no new row created. -/
theorem signup_duplicate_email_no_change (db : DB) (f : SignupForm) (u : User)
    (hv : signupValidate f = true)
    (hdup : (db.users.find? fun v => v.email == f.email) = some u) :
    signup db (some f)
      = (db, .redirect .signup ["User with this email already exists"]) := by
  simp only [signup, hv, if_true, hdup]

/-- C7 witness: the duplicate-signup theorem applied to a store holding the
sample user and a submission re-using that email. -/
theorem signup_duplicate_email_no_change_witness :
    signupValidate ⟨"ann@example.com", "Bob", "longenough"⟩ = true ∧
    ((DB.mk [] [sampleUser] 1 2).users.find?
        fun v => v.email == (SignupForm.mk "ann@example.com" "Bob" "longenough").email)
      = some sampleUser ∧
    signup (DB.mk [] [sampleUser] 1 2)
        (some ⟨"ann@example.com", "Bob", "longenough"⟩)
      = (DB.mk [] [sampleUser] 1 2,
         .redirect .signup ["User with this email already exists"]) :=
  ⟨by decide, by decide,
    signup_duplicate_email_no_change (DB.mk [] [sampleUser] 1 2)
      ⟨"ann@example.com", "Bob", "longenough"⟩ sampleUser (by decide) (by decide)⟩

/-- C8: for a stored user, a valid login submission with that email and a
non-matching password fails (password-mismatch warning, session unchanged,
so no session is established), while the correct password stores the user
id in the session, redirects, and current-user resolution on that session
yields exactly that user. -/
theorem login_auth_correctness (users : List User) (u : User)
    (pw wrong : String) (sess : Option Nat) (np : Option String)
    (hfind : (users.find? fun v => v.email == u.email) = some u)
    (hhash : u.password_hash = generate_password_hash pw)
    (hfilter : (users.filter fun v => v.id == u.id) = [u])
    (hwv : loginValidate ⟨u.email, wrong⟩ = true)
    (hpv : loginValidate ⟨u.email, pw⟩ = true)
    (hne : wrong ≠ pw) :
    login users sess np (some ⟨u.email, wrong⟩)
      = (sess, .render ["Password is incorrect"]) ∧
    (login users none np (some ⟨u.email, pw⟩)).1 = some u.id ∧
    (∃ url, (login users none np (some ⟨u.email, pw⟩)).2 = .redirect url []) ∧
    resolve_current_user users (some u.id) = .ok (.user u) := by
  have hwrongchk : check_password_hash u.password_hash wrong = false := by
    rw [hhash]; exact check_gen_false hne
  have hrightchk : check_password_hash u.password_hash pw = true := by
    rw [hhash]; exact check_gen_self pw
  refine ⟨?_, ?_, ?_, ?_⟩
  · simp only [login, hwv, if_true, hfind, hwrongchk]
    simp
  · simp only [login, hpv, if_true, hfind, hrightchk]
  · simp only [login, hpv, if_true, hfind, hrightchk]
    exact ⟨_, rfl⟩
  · simp only [resolve_current_user, load_user, hfilter]
    rfl

/-- C8 witness: the login correctness theorem applied to a store holding
the sample user, the matching password and a wrong password. -/
theorem login_auth_correctness_witness :
    (([sampleUser].find? fun v => v.email == sampleUser.email) = some sampleUser ∧
      sampleUser.password_hash = generate_password_hash "hunter2magic" ∧
      ([sampleUser].filter fun v => v.id == sampleUser.id) = [sampleUser] ∧
      loginValidate ⟨sampleUser.email, "wrongpassword"⟩ = true ∧
      loginValidate ⟨sampleUser.email, "hunter2magic"⟩ = true) ∧
    (login [sampleUser] none none (some ⟨sampleUser.email, "wrongpassword"⟩)
        = (none, .render ["Password is incorrect"]) ∧
      (login [sampleUser] none none (some ⟨sampleUser.email, "hunter2magic"⟩)).1
        = some sampleUser.id ∧
      (∃ url,
        (login [sampleUser] none none (some ⟨sampleUser.email, "hunter2magic"⟩)).2
          = .redirect url []) ∧
      resolve_current_user [sampleUser] (some sampleUser.id)
        = .ok (.user sampleUser)) :=
  ⟨⟨by decide, by decide, by decide, by decide, by decide⟩,
    login_auth_correctness [sampleUser] sampleUser "hunter2magic" "wrongpassword"
      none none (by decide) (by decide) (by decide) (by decide) (by decide)
      (by decide)⟩

/-- C9: a request to the protected /cafe/add route with no session is
short-circuited by the login_required guard — the store is untouched and
the response is a redirect to the login view carrying /cafe/add as the
next destination — and a subsequent successful login reading that next
argument redirects back to /cafe/add. -/
theorem protected_add_cafe_login_roundtrip (db : DB) (sub : Option AddCafeForm)
    (users : List User) (u : User) (pw : String)
    (hfind : (users.find? fun v => v.email == u.email) = some u)
    (hhash : u.password_hash = generate_password_hash pw)
    (hpv : loginValidate ⟨u.email, pw⟩ = true) :
    add_cafe_route db none sub = (db, .redirect (.login (some "/cafe/add")) []) ∧
    login users none (Url.login (some "/cafe/add")).nextArg (some ⟨u.email, pw⟩)
      = (some u.id, .redirect (.raw "/cafe/add") []) := by
  constructor
  · rfl
  · have hrightchk : check_password_hash u.password_hash pw = true := by
      rw [hhash]; exact check_gen_self pw
    simp only [Url.nextArg, login, hpv, if_true, hfind, hrightchk]

/-- C9 witness: the guard-and-return theorem applied to the empty store, a
sample submission and the sample user logging in afterwards. -/
theorem protected_add_cafe_login_roundtrip_witness :
    (([sampleUser].find? fun v => v.email == sampleUser.email) = some sampleUser ∧
      sampleUser.password_hash = generate_password_hash "hunter2magic" ∧
      loginValidate ⟨sampleUser.email, "hunter2magic"⟩ = true) ∧
    (add_cafe_route emptyDB none (some sampleForm)
        = (emptyDB, .redirect (.login (some "/cafe/add")) []) ∧
      login [sampleUser] none (Url.login (some "/cafe/add")).nextArg
          (some ⟨sampleUser.email, "hunter2magic"⟩)
        = (some sampleUser.id, .redirect (.raw "/cafe/add") [])) :=
  ⟨⟨by decide, by decide, by decide⟩,
    protected_add_cafe_login_roundtrip emptyDB (some sampleForm) [sampleUser]
      sampleUser "hunter2magic" (by decide) (by decide) (by decide)⟩

/-- C10: for a stored cafe, the cancel button leaves the whole store (the
cafe row and every other row) unchanged and redirects to the detail view,
while the confirm button redirects to the listing, makes the id
unretrievable, removes every row with that id from the listing, and leaves
the user table untouched. -/
theorem delete_cafe_confirm_cancel (db : DB) (i : Nat) (cafe : Cafe)
    (hget : db_get db i = some cafe) :
    delete_cafe db i (some ⟨false, true⟩) = (db, .redirect (.cafeDetail i) []) ∧
    (delete_cafe db i (some ⟨true, false⟩)).2 = .redirect .root [] ∧
    db_get (delete_cafe db i (some ⟨true, false⟩)).1 i = none ∧
    (∀ c ∈ index_cafes (delete_cafe db i (some ⟨true, false⟩)).1, ¬c.id = i) ∧
    (delete_cafe db i (some ⟨true, false⟩)).1.users = db.users := by
  have hstep : delete_cafe db i (some ⟨true, false⟩)
      = ({ db with cafes := db.cafes.filter fun c => !(c.id == i) },
         .redirect .root []) := by
    simp only [delete_cafe, hget, if_true]
  refine ⟨?_, ?_, ?_, ?_, ?_⟩
  · simp only [delete_cafe, hget]
    rfl
  · rw [hstep]
  · rw [hstep]
    show db_get { db with cafes := db.cafes.filter fun c => !(c.id == i) } i = none
    unfold db_get
    rw [List.find?_eq_none]
    intro c hc
    have h2 := (List.mem_filter.1 hc).2
    simp only [Bool.not_eq_true'] at h2
    simp [h2]
  · rw [hstep]
    intro c hc
    have h2 := (List.mem_filter.1 hc).2
    simpa using h2
  · rw [hstep]

/-- C10 witness: the delete theorem applied to the store holding the sample
cafe under id 1. -/
theorem delete_cafe_confirm_cancel_witness :
    db_get (add_cafe emptyDB (some sampleForm)).1 1
      = some ⟨1, "Blue Bottle", "https://maps.example.com/a",
          "https://img.example.com/a.png", "SF", true, true, true, false,
          some "10-20", some "£3.50"⟩ ∧
    (delete_cafe (add_cafe emptyDB (some sampleForm)).1 1 (some ⟨false, true⟩)
        = ((add_cafe emptyDB (some sampleForm)).1, .redirect (.cafeDetail 1) []) ∧
      (delete_cafe (add_cafe emptyDB (some sampleForm)).1 1 (some ⟨true, false⟩)).2
        = .redirect .root [] ∧
      db_get (delete_cafe (add_cafe emptyDB (some sampleForm)).1 1
          (some ⟨true, false⟩)).1 1 = none ∧
      (∀ c ∈ index_cafes (delete_cafe (add_cafe emptyDB (some sampleForm)).1 1
          (some ⟨true, false⟩)).1, ¬c.id = 1) ∧
      (delete_cafe (add_cafe emptyDB (some sampleForm)).1 1
          (some ⟨true, false⟩)).1.users
        = (add_cafe emptyDB (some sampleForm)).1.users) :=
  ⟨by decide,
    delete_cafe_confirm_cancel (add_cafe emptyDB (some sampleForm)).1 1
      ⟨1, "Blue Bottle", "https://maps.example.com/a",
        "https://img.example.com/a.png", "SF", true, true, true, false,
        some "10-20", some "£3.50"⟩ (by decide)⟩

/-- C6: a valid AddCafe submission commits a new cafe that is retrievable
by the redirected-to id with every field equal to the submitted one, and
whose stored coffee_price is the pound sign followed by the submitted price
rendered with exactly two decimal digits. -/
theorem add_cafe_retrievable (db : DB) (f : AddCafeForm)
    (hv : addCafeValidate f = true)
    (hfresh : (db.cafes.any fun c => c.name == f.name) = false)
    (hid : ∀ c ∈ db.cafes, c.id < db.nextCafeId) :
    ∃ c, (add_cafe db (some f)).2 = .redirect (.cafeDetail c.id) [] ∧
      db_get (add_cafe db (some f)).1 c.id = some c ∧
      c.name = f.name ∧ c.map_url = f.map_url ∧ c.img_url = f.img_url ∧
      c.location = f.location ∧ c.has_sockets = f.has_sockets ∧
      c.has_toilet = f.has_toilet ∧ c.has_wifi = f.has_wifi ∧
      c.can_take_calls = f.can_take_calls ∧ c.seats = f.seats ∧
      ∃ d, f.coffee_price = some d ∧ c.coffee_price = some (formatPrice d) ∧
        ∃ ds e1 e2, (formatPrice d).data = '£' :: (ds ++ ['.', e1, e2]) ∧
          (∀ ch ∈ ds, ch.isDigit = true) ∧ e1.isDigit = true ∧
          e2.isDigit = true := by
  obtain ⟨-, -, -, -, -, d, hd, hne0, hpos⟩ := addCafeValidate_spec hv
  refine ⟨⟨db.nextCafeId, f.name, f.map_url, f.img_url, f.location,
    f.has_sockets, f.has_toilet, f.has_wifi, f.can_take_calls, f.seats,
    some (formatPrice d)⟩, ?_, ?_, rfl, rfl, rfl, rfl, rfl, rfl, rfl, rfl,
    rfl, ?_⟩
  · rw [add_cafe_success hv hd hfresh]
  · rw [add_cafe_success hv hd hfresh]
    show db_get
      { db with
        cafes := db.cafes ++
          [⟨db.nextCafeId, f.name, f.map_url, f.img_url, f.location,
            f.has_sockets, f.has_toilet, f.has_wifi, f.can_take_calls,
            f.seats, some (formatPrice d)⟩],
        nextCafeId := db.nextCafeId + 1 } db.nextCafeId = _
    unfold db_get
    rw [find?_append_right]
    · simp [List.find?_cons]
    · intro x hx
      exact beq_eq_false_iff_ne.mpr (Nat.ne_of_lt (hid x hx))
  · refine ⟨d, hd, rfl,
      natDigits (penceMag d.units.natAbs d.scale / 100),
      digitChar (penceMag d.units.natAbs d.scale % 100 / 10),
      digitChar (penceMag d.units.natAbs d.scale % 100 % 10), ?_, ?_, ?_, ?_⟩
    · rw [formatPrice_nonneg d hpos]
      rfl
    · exact natDigits_digits _
    · exact digitChar_isDigit (by omega)
    · exact digitChar_isDigit (by omega)

/-- C6 witness: the retrievability theorem applied to the empty store and
the sample submission. -/
theorem add_cafe_retrievable_witness :
    (addCafeValidate sampleForm = true ∧
      (emptyDB.cafes.any fun c => c.name == sampleForm.name) = false ∧
      ∀ c ∈ emptyDB.cafes, c.id < emptyDB.nextCafeId) ∧
    (∃ c, (add_cafe emptyDB (some sampleForm)).2 = .redirect (.cafeDetail c.id) [] ∧
      db_get (add_cafe emptyDB (some sampleForm)).1 c.id = some c ∧
      c.name = sampleForm.name ∧ c.map_url = sampleForm.map_url ∧
      c.img_url = sampleForm.img_url ∧ c.location = sampleForm.location ∧
      c.has_sockets = sampleForm.has_sockets ∧
      c.has_toilet = sampleForm.has_toilet ∧ c.has_wifi = sampleForm.has_wifi ∧
      c.can_take_calls = sampleForm.can_take_calls ∧
      c.seats = sampleForm.seats ∧
      ∃ d, sampleForm.coffee_price = some d ∧
        c.coffee_price = some (formatPrice d) ∧
        ∃ ds e1 e2, (formatPrice d).data = '£' :: (ds ++ ['.', e1, e2]) ∧
          (∀ ch ∈ ds, ch.isDigit = true) ∧ e1.isDigit = true ∧
          e2.isDigit = true) :=
  ⟨⟨by decide, by decide, by decide⟩,
    add_cafe_retrievable emptyDB sampleForm (by decide) (by decide) (by decide)⟩

/-- C1: for a cafe created through add_cafe, prefilling a form from it and
populating an entity back reproduces the entity exactly, and formatting a
price representable with two decimal digits then parsing it back (stripping
the pound sign) is the identity. -/
theorem addCafe_prefill_populate_roundtrip (db : DB) (f g : AddCafeForm)
    (i : Nat) (cafe : Cafe)
    (hv : addCafeValidate f = true)
    (hid : ∀ c ∈ db.cafes, c.id < db.nextCafeId)
    (hadd : (add_cafe db (some f)).2 = .redirect (.cafeDetail i) [])
    (hget : db_get (add_cafe db (some f)).1 i = some cafe) :
    (∃ f2, prefill_form g cafe = some f2 ∧ populate_obj f2 cafe = some cafe) ∧
    ∀ n : Nat, parsePrice (formatPrice ⟨(n : Int), 2⟩) = some ⟨(n : Int), 2⟩ := by
  obtain ⟨-, -, -, -, -, d, hd, hne0, hpos⟩ := addCafeValidate_spec hv
  refine ⟨?_, fun n => price_roundtrip_two_decimals n⟩
  cases hfresh : db.cafes.any fun c => c.name == f.name with
  | true =>
    exfalso
    have herr : (add_cafe db (some f)).2
        = .errorPage "UNIQUE constraint failed: cafe.name" := by
      simp [add_cafe, hv, populate_obj, hd, hfresh]
    rw [herr] at hadd
    exact absurd hadd (by simp)
  | false =>
    have hsucc := add_cafe_success hv hd hfresh
    rw [hsucc] at hadd hget
    have hi : db.nextCafeId = i := by simpa using hadd
    subst hi
    have hcafe : cafe
        = ⟨db.nextCafeId, f.name, f.map_url, f.img_url, f.location,
          f.has_sockets, f.has_toilet, f.has_wifi, f.can_take_calls,
          f.seats, some (formatPrice d)⟩ := by
      have hfind : db_get
          { db with
            cafes := db.cafes ++
              [⟨db.nextCafeId, f.name, f.map_url, f.img_url, f.location,
                f.has_sockets, f.has_toilet, f.has_wifi, f.can_take_calls,
                f.seats, some (formatPrice d)⟩],
            nextCafeId := db.nextCafeId + 1 } db.nextCafeId
          = some ⟨db.nextCafeId, f.name, f.map_url, f.img_url, f.location,
              f.has_sockets, f.has_toilet, f.has_wifi, f.can_take_calls,
              f.seats, some (formatPrice d)⟩ := by
        unfold db_get
        rw [find?_append_right]
        · simp [List.find?_cons]
        · intro x hx
          exact beq_eq_false_iff_ne.mpr (Nat.ne_of_lt (hid x hx))
      rw [hfind] at hget
      exact (Option.some.inj hget).symm
    subst hcafe
    refine ⟨{ g with
        name := f.name, map_url := f.map_url, img_url := f.img_url,
        location := f.location, has_sockets := f.has_sockets,
        has_toilet := f.has_toilet, has_wifi := f.has_wifi,
        can_take_calls := f.can_take_calls, seats := f.seats,
        coffee_price := some ⟨(penceMag d.units.natAbs d.scale : Int), 2⟩ },
      ?_, ?_⟩
    · unfold prefill_form
      show (parsePrice (formatPrice d)).map _ = _
      rw [parsePrice_formatPrice d hpos]
      rfl
    · have hpr : formatPrice ⟨(penceMag d.units.natAbs d.scale : Int), 2⟩
          = formatPrice d :=
        (formatPrice_pence (penceMag d.units.natAbs d.scale)).trans
          (formatPrice_nonneg d hpos).symm
      unfold populate_obj
      simp only [Option.map_some']
      rw [hpr]

/-- C1 witness: the round-trip theorem applied to the empty store, the
sample submission, and the entity it creates under id 1. -/
theorem addCafe_prefill_populate_roundtrip_witness :
    (addCafeValidate sampleForm = true ∧
      (∀ c ∈ emptyDB.cafes, c.id < emptyDB.nextCafeId) ∧
      (add_cafe emptyDB (some sampleForm)).2 = .redirect (.cafeDetail 1) [] ∧
      db_get (add_cafe emptyDB (some sampleForm)).1 1
        = some ⟨1, "Blue Bottle", "https://maps.example.com/a",
            "https://img.example.com/a.png", "SF", true, true, true, false,
            some "10-20", some "£3.50"⟩) ∧
    ((∃ f2, prefill_form sampleForm
          ⟨1, "Blue Bottle", "https://maps.example.com/a",
            "https://img.example.com/a.png", "SF", true, true, true, false,
            some "10-20", some "£3.50"⟩ = some f2 ∧
        populate_obj f2
          ⟨1, "Blue Bottle", "https://maps.example.com/a",
            "https://img.example.com/a.png", "SF", true, true, true, false,
            some "10-20", some "£3.50"⟩
          = some ⟨1, "Blue Bottle", "https://maps.example.com/a",
              "https://img.example.com/a.png", "SF", true, true, true, false,
              some "10-20", some "£3.50"⟩) ∧
      ∀ n : Nat, parsePrice (formatPrice ⟨(n : Int), 2⟩) = some ⟨(n : Int), 2⟩) :=
  ⟨⟨by decide, by decide, by decide, by decide⟩,
    addCafe_prefill_populate_roundtrip emptyDB sampleForm sampleForm 1
      ⟨1, "Blue Bottle", "https://maps.example.com/a",
        "https://img.example.com/a.png", "SF", true, true, true, false,
        some "10-20", some "£3.50"⟩
      (by decide) (by decide) (by decide) (by decide)⟩

end CafeWifi
